import Mathlib

/-!
# Verification of the multi-db-connect condition/update compiler and schema synchronizer

Shallow embedding of `src/utils/query-parser.ts` (re-exported through
`src/migration/Migration.ts`: `parseQueryFilter`, `toMongoFilter`, `toSQLWhere`,
`parseUpdateFilter`, `toSQLUpdate`), of the SQLite adapter's update set-clause
builder, and of `src/sync.ts` (`SchemaSyncManager`), together with proofs of the
specified properties of these functions.
-/

namespace SDBC

/-- JavaScript runtime values as they flow through the query parser/compilers.
`vRegex src` models a `RegExp` object with the given `source`; `vObj` a plain
object (ordered own enumerable string-keyed entries); `vArr` an array.
Numbers are restricted to integers (all values in the code paths under
verification are integral). -/
inductive SVal where
  | vNull
  | vInt (n : Int)
  | vStr (s : String)
  | vBool (b : Bool)
  | vArr (vs : List SVal)
  | vObj (entries : List (String × SVal))
  | vRegex (source : String)

/-- JavaScript truthiness of an `SVal` (`if (value)`): `null`, `0`, `""`,
`false` are falsy; every object/array/regex is truthy. -/
def jsTruthy : SVal → Bool
  | .vNull => false
  | .vInt n => n != 0
  | .vStr s => s != ""
  | .vBool b => b
  | .vArr _ => true
  | .vObj _ => true
  | .vRegex _ => true

mutual

/-- JavaScript `String(value)` on the values representable as `SVal`
(arrays stringify as comma-joined elements, a regex as `/source/`;
objects as `[object Object]`). -/
def jsToString : SVal → String
  | .vNull => "null"
  | .vInt n => toString n
  | .vStr s => s
  | .vBool b => if b then "true" else "false"
  | .vArr vs => jsToStringList vs
  | .vObj _ => "[object Object]"
  | .vRegex src => "/" ++ src ++ "/"

/-- `Array.prototype.toString`: elements joined with `,`. -/
def jsToStringList : List SVal → String
  | [] => ""
  | [v] => jsToString v
  | v :: vs => jsToString v ++ "," ++ jsToStringList vs

end

/-- A parsed condition (`ParsedCondition` in `query-parser.ts`).  The source
stores `{field, operator, value}` with `value : unknown`; `toSQLWhere` and
`toMongoFilter` dispatch on `operator === '$or' || operator === '$and'` and
treat `value` as `ParsedCondition[][]` exactly in that case, so the untyped
union is split by that dispatch tag: `group isOr subs` is a condition whose
operator is `$or` (`isOr = true`) or `$and` (`isOr = false`). -/
inductive Cond where
  | leaf (field : String) (op : String) (value : SVal)
  | group (isOr : Bool) (subs : List (List Cond))

/-- The mutable state threaded through `toSQLWhere`'s closure:
the `params` array and the `paramIndex` counter. -/
structure WSt where
  params : List SVal
  paramIndex : Nat

/-- `` `${paramPrefix}${paramIndex}` `` — a placeholder string. -/
def phStr (pp : String) (i : Nat) : String := pp ++ toString i

/-- One leaf of the `switch (operator)` in `toSQLWhere.processConditions`.
On entry the source unconditionally executes
`const placeholder = getParamPlaceholder()` (consuming index `s.paramIndex`
and incrementing it); the returned list is the `parts` entries this leaf
pushes (zero or one). -/
def processLeaf (pp : String) (f op : String) (v : SVal) (s : WSt) :
    List String × WSt :=
  let placeholder := phStr pp s.paramIndex
  let i := s.paramIndex
  let s1 : WSt := { s with paramIndex := i + 1 }
  if op = "$eq" then
    match v with
    | .vNull => ([f ++ " IS NULL"], s1)
    | _ => ([f ++ " = " ++ placeholder], { s1 with params := s1.params ++ [v] })
  else if op = "$ne" then
    match v with
    | .vNull => ([f ++ " IS NOT NULL"], s1)
    | _ => ([f ++ " != " ++ placeholder], { s1 with params := s1.params ++ [v] })
  else if op = "$gt" then
    ([f ++ " > " ++ placeholder], { s1 with params := s1.params ++ [v] })
  else if op = "$gte" then
    ([f ++ " >= " ++ placeholder], { s1 with params := s1.params ++ [v] })
  else if op = "$lt" then
    ([f ++ " < " ++ placeholder], { s1 with params := s1.params ++ [v] })
  else if op = "$lte" then
    ([f ++ " <= " ++ placeholder], { s1 with params := s1.params ++ [v] })
  else if op = "$in" then
    match v with
    | .vArr vs =>
      if vs.length > 0 then
        -- `value.map(() => getParamPlaceholder())`: indices i+1 .. i+len
        let phs := (List.range vs.length).map (fun k => phStr pp (i + 1 + k))
        -- `params.pop()` (drops the last previously bound value, if any)
        -- followed by `paramIndex--`, then `value.forEach` pushing each
        -- element and incrementing `paramIndex` again.
        let s2 : WSt := { params := s1.params.dropLast ++ vs,
                          paramIndex := (i + 1 + vs.length - 1) + vs.length }
        ([f ++ " IN (" ++ String.intercalate ", " phs ++ ")"], s2)
      else ([], s1)
    | _ => ([], s1)
  else if op = "$nin" then
    match v with
    | .vArr vs =>
      if vs.length > 0 then
        let phs := (List.range vs.length).map (fun k => phStr pp (i + 1 + k))
        let s2 : WSt := { params := s1.params.dropLast ++ vs,
                          paramIndex := (i + 1 + vs.length - 1) + vs.length }
        ([f ++ " NOT IN (" ++ String.intercalate ", " phs ++ ")"], s2)
      else ([], s1)
    | _ => ([], s1)
  else if op = "$regex" then
    let pattern := match v with | .vRegex src => src | _ => jsToString v
    ([f ++ " LIKE " ++ placeholder],
     { s1 with params := s1.params ++ [.vStr ("%" ++ pattern ++ "%")] })
  else if op = "$exists" then
    if jsTruthy v then ([f ++ " IS NOT NULL"], s1) else ([f ++ " IS NULL"], s1)
  else
    -- no `default:` branch in the source switch
    ([], s1)

mutual

/-- `processConditions`' body for one condition: the `parts` entries it pushes
(`$or`/`$and` recurse into their children, leaves go through the switch). -/
def processCond (pp : String) : Cond → WSt → List String × WSt
  | .leaf f op v, s => processLeaf pp f op v s
  | .group isOr subs, s =>
    let (strs, s') := processSubs pp subs s
    let nz := strs.filter (fun c => c ≠ "")
    if nz.isEmpty then ([], s')
    else (["(" ++ String.intercalate (if isOr then " OR " else " AND ") nz ++ ")"], s')

/-- The `for`-loop of `processConditions` over a condition list, accumulating
`parts` and threading the closure state. -/
def processConds (pp : String) : List Cond → WSt → List String × WSt
  | [], s => ([], s)
  | c :: cs, s =>
    let (p, s1) := processCond pp c s
    let (ps, s2) := processConds pp cs s1
    (p ++ ps, s2)

/-- `value.map(c => processConditions(c, 'AND'))`: each child condition list is
compiled to its `parts.join(' AND ')` string (filtering happens at the caller). -/
def processSubs (pp : String) : List (List Cond) → WSt → List String × WSt
  | [], s => ([], s)
  | l :: ls, s =>
    let (ps, s1) := processConds pp l s
    let (strs, s2) := processSubs pp ls s1
    (String.intercalate " AND " ps :: strs, s2)

end

/-- The result of `toSQLWhere` (`SQLQuery` in the source). -/
structure SQLQuery where
  whereClause : String
  params : List SVal

/-- `toSQLWhere(conditions, paramPrefix)`: parameterized WHERE-clause compiler.
`where || '1=1'` maps the empty string to `1=1`. -/
def toSQLWhere (conditions : List Cond) (pp : String := "$") : SQLQuery :=
  let (parts, s) := processConds pp conditions ⟨[], 1⟩
  let w := String.intercalate " AND " parts
  ⟨if w = "" then "1=1" else w, s.params⟩

/-- An entry of a declarative query filter: either an ordinary field mapped to
a value (a literal, or an operator-keyed object — the source distinguishes by
`typeof`), or a top-level `$or`/`$and` key mapped to an array of sub-filters. -/
inductive FilterEntry where
  | fld (name : String) (v : SVal)
  | grp (isOr : Bool) (subs : List (List FilterEntry))

/-- The leaves `parseQueryFilter` pushes for one `field: condition` entry.
A value that is `null`, a non-object, a `Date` or a `RegExp` is an equality
leaf; otherwise `Object.entries(condition)` becomes one leaf per operator key
(an array value therefore yields index-keyed leaves). -/
def parseFieldEntry (f : String) (v : SVal) : List Cond :=
  match v with
  | .vObj ops => ops.map (fun p => .leaf f p.1 p.2)
  | .vArr vs => vs.enum.map (fun p => .leaf f (toString p.1) p.2)
  | _ => [.leaf f "$eq" v]

mutual

/-- `parseQueryFilter(filter)`: normalize a declarative filter into a flat
list of `ParsedCondition`s, recursing through `$or`/`$and` groups. -/
def parseQueryFilter : List FilterEntry → List Cond
  | [] => []
  | .fld f v :: rest => parseFieldEntry f v ++ parseQueryFilter rest
  | .grp isOr subs :: rest => .group isOr (parseSubFilters subs) :: parseQueryFilter rest

/-- `(condition as QueryFilter[]).map(f => parseQueryFilter(f))`. -/
def parseSubFilters : List (List FilterEntry) → List (List Cond)
  | [] => []
  | l :: ls => parseQueryFilter l :: parseSubFilters ls

end

/-- JS property assignment `obj[k] = v` on an ordered string-keyed object:
an existing key keeps its position and gets the new value, a new key is
appended. -/
def setKey {α : Type} (l : List (String × α)) (k : String) (v : α) :
    List (String × α) :=
  if l.any (fun p => p.1 = k) then
    l.map (fun p => if p.1 = k then (k, v) else p)
  else l ++ [(k, v)]

/-- JS property read `obj[k]`. -/
def getKey {α : Type} (l : List (String × α)) (k : String) : Option α :=
  (l.find? (fun p => p.1 = k)).map (fun p => p.2)

/-- A value of the MongoDB-native filter structure built by `toMongoFilter`:
a field bound directly to a literal (`$eq`), a field bound to an
operator-keyed object, or a `$or`/`$and` key bound to an array of
sub-filters. -/
inductive MVal where
  | scalar (v : SVal)
  | opmap (entries : List (String × SVal))
  | subs (fs : List (List (String × MVal)))

/-- The native filter structure: an ordered string-keyed object. -/
abbrev MongoFilter := List (String × MVal)

mutual

/-- The loop of `toMongoFilter` over the condition list, threading the filter
object being built.  `filter[field] = value` for `$eq`; otherwise
`if (!filter[field]) filter[field] = {}` followed by
`filter[field][operator] = value`.  Writing a property of a truthy primitive
is a `TypeError` in strict mode (the compiled module is strict), modelled as
`Except.error`; writing a property of a stored sub-filter array adds a
non-index property that the native structure does not carry, so the filter is
unchanged (unreachable from `parseQueryFilter` output). -/
def toMongoGo : List Cond → MongoFilter → Except Unit MongoFilter
  | [], acc => .ok acc
  | .group isOr subs :: cs, acc =>
    match toMongoSubs subs with
    | .error e => .error e
    | .ok fs => toMongoGo cs (setKey acc (if isOr then "$or" else "$and") (.subs fs))
  | .leaf f op v :: cs, acc =>
    if op = "$eq" then toMongoGo cs (setKey acc f (.scalar v))
    else
      match getKey acc f with
      | some (.opmap l) => toMongoGo cs (setKey acc f (.opmap (setKey l op v)))
      | some (.scalar w) =>
        if jsTruthy w then .error ()
        else toMongoGo cs (setKey acc f (.opmap [(op, v)]))
      | some (.subs _) => toMongoGo cs acc
      | none => toMongoGo cs (setKey acc f (.opmap [(op, v)]))

/-- `(value as ParsedCondition[][]).map(conds => toMongoFilter(conds))`. -/
def toMongoSubs : List (List Cond) → Except Unit (List MongoFilter)
  | [] => .ok []
  | l :: ls =>
    match toMongoGo l [] with
    | .error e => .error e
    | .ok f =>
      match toMongoSubs ls with
      | .error e => .error e
      | .ok fs => .ok (f :: fs)

end

/-- `toMongoFilter(conditions)`: MongoDB native filter compiler. -/
def toMongoFilter (conditions : List Cond) : Except Unit MongoFilter :=
  toMongoGo conditions []

/-- `Object.entries(v)` / the entries `Object.assign` copies from `v`:
an object gives its entries, an array its index-keyed elements, a string its
index-keyed characters; primitives and a `RegExp` have no own enumerable
properties. -/
def jsEntries : SVal → List (String × SVal)
  | .vObj l => l
  | .vArr vs => vs.enum.map (fun p => (toString p.1, p.2))
  | .vStr s => s.toList.enum.map (fun p => (toString p.1, .vStr (String.singleton p.2)))
  | _ => []

/-- `Object.assign(base, more)`: fold the entries of `more` into `base`. -/
def objAssign (base more : List (String × SVal)) : List (String × SVal) :=
  more.foldl (fun acc p => setKey acc p.1 p.2) base

/-- The five operation buckets `parseUpdateFilter` returns. -/
structure ParsedUpdate where
  sets : List (String × SVal)
  increments : List (String × SVal)
  unsets : List String
  pushes : List (String × SVal)
  pulls : List (String × SVal)

/-- `key.startsWith('$')`, written on the character list so that it reduces
structurally. -/
def startsWithDollar (k : String) : Bool :=
  match k.toList with
  | c :: _ => c = '$'
  | [] => false

/-- `name.toLowerCase()`: per-character lowering. -/
def lowerStr (s : String) : String :=
  ⟨s.toList.map Char.toLower⟩

/-- `if (ops.$k)`: the operator value is present and truthy. -/
def truthyOpt : Option SVal → Bool
  | some v => jsTruthy v
  | none => false

/-- `parseUpdateFilter(update)`: normalize an update expression into buckets.
If no top-level key starts with `$`, the whole input is the `sets` bucket;
otherwise `$set` is assigned into `sets`, `$inc`/`$push`/`$pull` become the
respective buckets, `$unset` contributes its keys, and `$addToSet` is
assigned into `pushes`. -/
def parseUpdateFilter (update : List (String × SVal)) : ParsedUpdate :=
  let hasOperators := update.any (fun p => startsWithDollar p.1)
  if ¬hasOperators then
    ⟨update, [], [], [], []⟩
  else
    let opOf := fun (k : String) => getKey update k
    let sets := match opOf "$set" with
      | some v => if jsTruthy v then objAssign [] (jsEntries v) else []
      | none => []
    let increments := match opOf "$inc" with
      | some v => if jsTruthy v then jsEntries v else []
      | none => []
    let unsets := match opOf "$unset" with
      | some v => if jsTruthy v then (jsEntries v).map (fun p => p.1) else []
      | none => []
    let pushes0 := match opOf "$push" with
      | some v => if jsTruthy v then jsEntries v else []
      | none => []
    let pulls := match opOf "$pull" with
      | some v => if jsTruthy v then jsEntries v else []
      | none => []
    let pushes := match opOf "$addToSet" with
      | some v => if jsTruthy v then objAssign pushes0 (jsEntries v) else pushes0
      | none => pushes0
    ⟨sets, increments, unsets, pushes, pulls⟩

/-- `toSQLUpdate(tableName, update, whereClause, whereParams, paramPrefix)`:
build the UPDATE statement.  Set clauses are emitted for the `sets` bucket
first, then `increments`, then `unsets`; placeholder numbering starts at
`whereParams.length + 1`; an empty clause list throws
`new Error('No fields to update')`. -/
def toSQLUpdate (tableName : String) (update : List (String × SVal))
    (whereClause : String) (whereParams : List SVal) (pp : String := "$") :
    Except String (String × List SVal) :=
  let parsed := parseUpdateFilter update
  let startIdx := whereParams.length + 1
  let setsClauses := parsed.sets.enum.map
    (fun p => p.2.1 ++ " = " ++ phStr pp (startIdx + p.1))
  let incStart := startIdx + parsed.sets.length
  let incClauses := parsed.increments.enum.map
    (fun p => p.2.1 ++ " = " ++ p.2.1 ++ " + " ++ phStr pp (incStart + p.1))
  let unsetClauses := parsed.unsets.map (fun k => k ++ " = NULL")
  let setClauses := setsClauses ++ incClauses ++ unsetClauses
  let params := parsed.sets.map (fun p => p.2) ++ parsed.increments.map (fun p => p.2)
  if setClauses.isEmpty then .error "No fields to update"
  else .ok ("UPDATE " ++ tableName ++ " SET " ++ String.intercalate ", " setClauses
            ++ " WHERE " ++ whereClause, whereParams ++ params)

/-- Escape a character for a JSON string literal (backslash and double quote;
control characters do not occur in the values considered here). -/
def jsonEscapeChar (c : Char) : List Char :=
  if c = '\\' then ['\\', '\\'] else if c = '"' then ['\\', '"'] else [c]

/-- JSON string-literal escaping. -/
def jsonEscape (s : String) : String :=
  ⟨s.toList.foldr (fun c acc => jsonEscapeChar c ++ acc) []⟩

mutual

/-- `JSON.stringify` on the values representable as `SVal` (a `RegExp` has no
own enumerable properties and stringifies as the empty object). -/
def jsonStringify : SVal → String
  | .vNull => "null"
  | .vInt n => toString n
  | .vStr s => "\"" ++ jsonEscape s ++ "\""
  | .vBool b => if b then "true" else "false"
  | .vArr vs => "[" ++ jsonStringifyArr vs ++ "]"
  | .vObj l => "\x7b" ++ jsonStringifyObj l ++ "\x7d"
  | .vRegex _ => "\x7b\x7d"

/-- Array elements, comma-joined. -/
def jsonStringifyArr : List SVal → String
  | [] => ""
  | [v] => jsonStringify v
  | v :: vs => jsonStringify v ++ "," ++ jsonStringifyArr vs

/-- Object entries, comma-joined. -/
def jsonStringifyObj : List (String × SVal) → String
  | [] => ""
  | [(k, v)] => "\"" ++ jsonEscape k ++ "\":" ++ jsonStringify v
  | (k, v) :: l => "\"" ++ jsonEscape k ++ "\":" ++ jsonStringify v ++ "," ++ jsonStringifyObj l

end

/-- `SQLiteAdapter.serializeValue`: booleans become `0`/`1`, objects (arrays,
plain objects, regexes) become their `JSON.stringify` string, everything else
passes through.  (`Date` values, which become ISO strings, are outside the
`SVal` value universe.) -/
def serializeValue : SVal → SVal
  | .vBool b => .vInt (if b then 1 else 0)
  | .vArr vs => .vStr (jsonStringify (.vArr vs))
  | .vObj l => .vStr (jsonStringify (.vObj l))
  | .vRegex _ => .vStr "\x7b\x7d"
  | v => v

/-- The set-clause builder of `SQLiteAdapter.updateOne` (part of the SQLite
adapter): double-quoted identifiers with repeated `?` markers — `sets` first
(values serialized), then `increments`, then `unsets` — and the parameter
list in the same order. -/
def sqliteUpdateSetClauses (update : List (String × SVal)) :
    List String × List SVal :=
  let parsed := parseUpdateFilter update
  (parsed.sets.map (fun p => "\"" ++ p.1 ++ "\" = ?")
     ++ parsed.increments.map (fun p => "\"" ++ p.1 ++ "\" = \"" ++ p.1 ++ "\" + ?")
     ++ parsed.unsets.map (fun k => "\"" ++ k ++ "\" = NULL"),
   parsed.sets.map (fun p => serializeValue p.2)
     ++ parsed.increments.map (fun p => p.2))

/-! ## Schema synchronizer (`src/sync.ts`, `SchemaSyncManager`) -/

/-- `SyncOptions`. -/
structure SyncOptions where
  force : Bool := false
  alter : Bool := false

/-- The result summary `sync` returns. -/
structure SyncResult where
  created : Bool
  altered : Bool
  changes : List String

/-- One driver call the synchronizer makes, recorded in order of execution:
the table-existence introspection query, the column introspection query,
`dropCollection`, `createCollection`, one ADD COLUMN statement, one CREATE
INDEX statement. -/
inductive DbOp where
  | existsQuery
  | columnsQuery
  | dropTable
  | createTable
  | addColumn (field : String)
  | createIndex (field : String)
deriving DecidableEq, Repr

/-- The flags of a declared field that drive the synchronizer (`required`
affects only the generated SQL text, `unique`/`index` drive `syncIndexes`). -/
structure FieldDef where
  required : Bool := false
  uniqueFlag : Bool := false
  indexFlag : Bool := false

/-- A declared table shape: `schema.definition` in declaration order. -/
abbrev Shape := List (String × FieldDef)

/-- The out-of-scope driver the synchronizer calls, over an abstract backend
state `σ`: each operation either succeeds (introspections reporting their
result, DDL statements producing a new state) or throws. -/
structure Driver (σ : Type) where
  existsResult : σ → Except Unit Bool
  columnsResult : σ → Except Unit (List String)
  runAddColumn : String → σ → Except Unit σ
  runCreateIndex : String → σ → Except Unit σ
  runDrop : σ → Except Unit σ
  runCreate : σ → Except Unit σ

/-- The adapter-dependent configuration of a `SchemaSyncManager`:
`adapter.name`, whether `(adapter as any).query` is a function, and the
collection/table name. -/
structure SyncCfg where
  adapterName : String
  hasQuery : Bool
  collectionName : String

/-- The three adapter names for which `getTableExistsQuery`,
`getAddColumnSQL` and `getCreateIndexSQL` return a statement (every other
name yields `null`). -/
def isSqlDialect (n : String) : Bool :=
  n = "postgres" || n = "mysql" || n = "sqlite"

variable {σ : Type}

/-- `tableExists()`: MongoDB always reports present; the SQL dialects run the
introspection query when `query` is a function, and the surrounding
`try/catch` maps a thrown introspection to `false`. -/
def tableExists (d : Driver σ) (cfg : SyncCfg) (s : σ) : Bool × List DbOp :=
  if cfg.adapterName = "mongodb" then (true, [])
  else if isSqlDialect cfg.adapterName then
    if cfg.hasQuery then
      match d.existsResult s with
      | .ok b => (b, [.existsQuery])
      | .error _ => (false, [.existsQuery])
    else (false, [])
  else (false, [])

/-- `getExistingColumns()`: the per-dialect column introspection; a `null`
query, a missing `query` method, or a thrown query all yield `[]`. -/
def getExistingColumns (d : Driver σ) (cfg : SyncCfg) (s : σ) :
    List String × List DbOp :=
  if isSqlDialect cfg.adapterName then
    if cfg.hasQuery then
      match d.columnsResult s with
      | .ok cols => (cols, [.columnsQuery])
      | .error _ => ([], [.columnsQuery])
    else ([], [])
  else ([], [])

/-- The `for` loop of `alterTable` over the declared fields: a field whose
lower-cased name is absent from the existing set gets an ADD COLUMN statement
(when the dialect produces one and `query` is a function).  A thrown ADD
COLUMN leaves the loop for the surrounding `catch`; the final `Bool` records
that abort. -/
def alterLoop (d : Driver σ) (cfg : SyncCfg) (existingSet : List String) :
    Shape → σ → List String × σ × List DbOp × Bool
  | [], s => ([], s, [], false)
  | (f, _) :: fields, s =>
    if existingSet.contains (lowerStr f) then alterLoop d cfg existingSet fields s
    else if isSqlDialect cfg.adapterName && cfg.hasQuery then
      match d.runAddColumn f s with
      | .ok s' =>
        let (chs, s'', tr, ab) := alterLoop d cfg existingSet fields s'
        (("Added column '" ++ f ++ "'") :: chs, s'', .addColumn f :: tr, ab)
      | .error _ => ([], s, [.addColumn f], true)
    else alterLoop d cfg existingSet fields s

/-- `syncIndexes()`: for every declared field flagged `unique` or `index`,
run the CREATE INDEX statement through the optional `query` method; a thrown
statement is swallowed by the per-index `try/catch`. -/
def syncIndexes (d : Driver σ) (cfg : SyncCfg) :
    Shape → σ → σ × List DbOp
  | [], s => (s, [])
  | (f, fd) :: fields, s =>
    if (fd.uniqueFlag || fd.indexFlag)
        && isSqlDialect cfg.adapterName && cfg.hasQuery then
      match d.runCreateIndex f s with
      | .ok s' =>
        let (s'', tr) := syncIndexes d cfg fields s'
        (s'', .createIndex f :: tr)
      | .error _ =>
        let (s'', tr) := syncIndexes d cfg fields s
        (s'', .createIndex f :: tr)
    else syncIndexes d cfg fields s

/-- `alterTable()`: a no-op for MongoDB; otherwise introspect the existing
columns (failure yields `[]`), add each absent declared field column-by-column,
then synchronize indexes.  The outer `catch` turns a thrown ADD COLUMN into a
logged, non-propagated abort that skips the remaining fields and `syncIndexes`
and returns the changes accumulated so far. -/
def alterTable (d : Driver σ) (cfg : SyncCfg) (schema : Shape) (s : σ) :
    List String × σ × List DbOp :=
  if cfg.adapterName = "mongodb" then ([], s, [])
  else
    let (cols, tr0) := getExistingColumns d cfg s
    let existingSet := cols.map (fun c => lowerStr c)
    let (chs, s1, tr1, aborted) := alterLoop d cfg existingSet schema s
    if aborted then (chs, s1, tr0 ++ tr1)
    else
      let (s2, tr2) := syncIndexes d cfg schema s1
      (chs, s2, tr0 ++ tr1 ++ tr2)

/-- `sync(options)`: force mode drops and recreates unconditionally;
otherwise a missing table is created from the full shape; otherwise alter
mode applies `alterTable` and reports `altered` exactly when its change list
is non-empty.  A thrown `dropCollection`/`createCollection` propagates. -/
def sync (d : Driver σ) (cfg : SyncCfg) (schema : Shape)
    (opts : SyncOptions) (s : σ) :
    Except Unit (SyncResult × σ × List DbOp) :=
  if opts.force then
    match d.runDrop s with
    | .error e => .error e
    | .ok s1 =>
      match d.runCreate s1 with
      | .error e => .error e
      | .ok s2 =>
        .ok (⟨true, false,
              ["Table '" ++ cfg.collectionName ++ "' dropped and recreated"]⟩,
             s2, [.dropTable, .createTable])
  else
    let (ex, tr0) := tableExists d cfg s
    if !ex then
      match d.runCreate s with
      | .error e => .error e
      | .ok s1 =>
        .ok (⟨true, false, ["Table '" ++ cfg.collectionName ++ "' created"]⟩,
             s1, tr0 ++ [.createTable])
    else if opts.alter then
      let (chs, s1, tr1) := alterTable d cfg schema s
      if chs.length > 0 then .ok (⟨false, true, chs⟩, s1, tr0 ++ tr1)
      else .ok (⟨false, false, []⟩, s1, tr0 ++ tr1)
    else .ok (⟨false, false, []⟩, s, tr0)

/-- A concrete backend state for instantiating the driver: whether the table
exists and its column list. -/
structure Db where
  present : Bool
  cols : List String

/-- A well-behaved driver over `Db`: introspections report the state, ADD
COLUMN appends the column, CREATE INDEX succeeds, DROP empties the state,
CREATE builds the table with columns `createCols`. -/
def goodDriver (createCols : List String := []) : Driver Db where
  existsResult := fun db => .ok db.present
  columnsResult := fun db => .ok db.cols
  runAddColumn := fun f db => .ok ⟨db.present, db.cols ++ [f]⟩
  runCreateIndex := fun _ db => .ok db
  runDrop := fun _ => .ok ⟨false, []⟩
  runCreate := fun _ => .ok ⟨true, createCols⟩

/-- `goodDriver` except that adding any column named in `bad` throws
(e.g. the backend rejects that DDL statement). -/
def failingDriver (bad : List String) (createCols : List String := []) : Driver Db where
  existsResult := fun db => .ok db.present
  columnsResult := fun db => .ok db.cols
  runAddColumn := fun f db =>
    if bad.contains f then .error () else .ok ⟨db.present, db.cols ++ [f]⟩
  runCreateIndex := fun _ db => .ok db
  runDrop := fun _ => .ok ⟨false, []⟩
  runCreate := fun _ => .ok ⟨true, createCols⟩

/-- `goodDriver` except that the table-existence introspection query throws. -/
def throwingExistsDriver (createCols : List String := []) : Driver Db where
  existsResult := fun _ => .error ()
  columnsResult := fun db => .ok db.cols
  runAddColumn := fun f db => .ok ⟨db.present, db.cols ++ [f]⟩
  runCreateIndex := fun _ db => .ok db
  runDrop := fun _ => .ok ⟨false, []⟩
  runCreate := fun _ => .ok ⟨true, createCols⟩

/-! ## Spec-side definitions (from the specification text, for comparison) -/

mutual

/-- Spec-side (from the claim text, not from the source): the parameter count
the specification promises for one condition — one per scalar leaf that is
neither a null-equality/null-inequality nor an exists leaf, plus one per
element of each member-of/not-member-of list. -/
def specCondParamCount : Cond → Nat
  | .leaf _ op v =>
    match op, v with
    | "$in", .vArr vs => vs.length
    | "$nin", .vArr vs => vs.length
    | "$exists", _ => 0
    | "$eq", .vNull => 0
    | "$ne", .vNull => 0
    | _, _ => 1
  | .group _ subs => specSubsParamCount subs

/-- Spec-side: summed over a condition list. -/
def specCondsParamCount : List Cond → Nat
  | [] => 0
  | c :: cs => specCondParamCount c + specCondsParamCount cs

/-- Spec-side: summed over the children of a logical group. -/
def specSubsParamCount : List (List Cond) → Nat
  | [] => 0
  | l :: ls => specCondsParamCount l + specSubsParamCount ls

end

mutual

/-- A condition that is a logical group containing no leaf anywhere
(its children are themselves leaf-free). -/
def condNoLeaf : Cond → Bool
  | .leaf .. => false
  | .group _ subs => subsNoLeaf subs

/-- A condition list all of whose members are leaf-free groups. -/
def condsNoLeaf : List Cond → Bool
  | [] => true
  | c :: cs => condNoLeaf c && condsNoLeaf cs

/-- Children lists of a group, all leaf-free. -/
def subsNoLeaf : List (List Cond) → Bool
  | [] => true
  | l :: ls => condsNoLeaf l && subsNoLeaf ls

end

/-! ## Theorems -/

/-- Appending condition lists: the compiled parts concatenate and the closure
state threads left to right. -/
theorem processConds_append (pp : String) (l₁ l₂ : List Cond) (s : WSt) :
    processConds pp (l₁ ++ l₂) s
      = ((processConds pp l₁ s).1 ++ (processConds pp l₂ (processConds pp l₁ s).2).1,
         (processConds pp l₂ (processConds pp l₁ s).2).2) := by
  induction l₁ generalizing s with
  | nil => simp [processConds]
  | cons c cs ih => simp [processConds, ih]

/-- C1 (status: code_bug).  The positional-placeholder `$in` expansion
misnumbers its placeholders: compiling the filter
`\x7bfield: \x7b$in: [1, 2, 3]\x7d\x7d` alone yields the parameter list
`[1, 2, 3]` (positions 1–3) but an IN clause referring to `$2, $3, $4`; and
with one prior equality leaf (`x = 5`) the previously bound parameter `5` is
dropped from the parameter list by the `params.pop()` in the `$in` branch, so
the emitted clause `x = $1 AND field IN ($3, $4, $5)` refers to positions
that do not exist.  The spec (§4.3, §8, §9) instead mandates issue-once
left-to-right numbering aligned with parameter positions. -/
theorem c1_positional_in_misnumbered :
    toSQLWhere (parseQueryFilter
        [.fld "field" (.vObj [("$in", .vArr [.vInt 1, .vInt 2, .vInt 3])])]) "$"
      = ⟨"field IN ($2, $3, $4)", [.vInt 1, .vInt 2, .vInt 3]⟩
    ∧ toSQLWhere (parseQueryFilter
        [.fld "x" (.vInt 5),
         .fld "field" (.vObj [("$in", .vArr [.vInt 1, .vInt 2, .vInt 3])])]) "$"
      = ⟨"x = $1 AND field IN ($3, $4, $5)", [.vInt 1, .vInt 2, .vInt 3]⟩ := by
  refine ⟨?_, ?_⟩ <;> (simp only [parseQueryFilter, parseFieldEntry]; rfl)

/-- C2 (status: code_bug).  The spec-side parameter count for the filter
`\x7bx: 5, y: \x7b$in: [1]\x7d\x7d` is 2 (one scalar leaf plus one list
element), but the compiler returns a single parameter: the `$in` branch pops
the parameter previously bound for `x`. -/
theorem c2_param_count_mismatch :
    specCondsParamCount (parseQueryFilter
        [.fld "x" (.vInt 5), .fld "y" (.vObj [("$in", .vArr [.vInt 1])])]) = 2
    ∧ (toSQLWhere (parseQueryFilter
        [.fld "x" (.vInt 5), .fld "y" (.vObj [("$in", .vArr [.vInt 1])])]) "$").params
      = [.vInt 1] := by
  refine ⟨?_, ?_⟩ <;> (simp only [parseQueryFilter, parseFieldEntry]; rfl)

/-- C3 counterexample.  The update `\x7b$inc: \x7bage: 1\x7d, $set:
\x7bname: "X"\x7d\x7d` compiled by the repeated-marker SQLite set-clause
builder yields the assignment clause before the increment clause with
parameters `["X", 1]` — not the claimed `"age = age + ?, name = ?"` with
parameters `[1, "X"]`. -/
theorem c3_bucket_order_counterexample :
    sqliteUpdateSetClauses
        [("$inc", .vObj [("age", .vInt 1)]), ("$set", .vObj [("name", .vStr "X")])]
      = (["\"name\" = ?", "\"age\" = \"age\" + ?"], [.vStr "X", .vInt 1])
    ∧ String.intercalate ", " (sqliteUpdateSetClauses
        [("$inc", .vObj [("age", .vInt 1)]), ("$set", .vObj [("name", .vStr "X")])]).1
      ≠ "age = age + ?, name = ?" :=
  ⟨rfl, by decide⟩

/-- C3 amended (status: corrected).  For every update expression, the
relational update compilers emit assignment clauses before increment
clauses: in the SQLite builder the i-th emitted clause (for `i` below the
assignment-bucket size) is the assignment clause for the i-th assignment,
the clause at position `size-of-assignment-bucket + j` is the increment
clause for the j-th increment — so every assignment position strictly
precedes every increment position — and in the core `toSQLUpdate` the
successful parameter list is always the where-parameters followed by the
assignment values followed by the increment values.  Concretely, the update
`\x7b$inc: \x7bage: 1\x7d, $set: \x7bname: "X"\x7d\x7d` yields
`"name" = ?, "age" = "age" + ?` with parameters `["X", 1]` from the SQLite
builder, and `name = ?1, age = age + ?2` with the same parameter order from
`toSQLUpdate` with marker prefix `?`. -/
theorem c3_assignments_before_increments :
    (∀ (u : List (String × SVal)) (i j : Nat)
        (hi : i < (parseUpdateFilter u).sets.length)
        (hj : j < (parseUpdateFilter u).increments.length),
        (sqliteUpdateSetClauses u).1[i]?
          = some ("\"" ++ ((parseUpdateFilter u).sets.get ⟨i, hi⟩).1 ++ "\" = ?")
        ∧ (sqliteUpdateSetClauses u).1[(parseUpdateFilter u).sets.length + j]?
          = some ("\"" ++ ((parseUpdateFilter u).increments.get ⟨j, hj⟩).1
                  ++ "\" = \"" ++ ((parseUpdateFilter u).increments.get ⟨j, hj⟩).1
                  ++ "\" + ?")
        ∧ i < (parseUpdateFilter u).sets.length + j)
    ∧ (∀ (u : List (String × SVal)) (tn wc : String) (wp : List SVal)
        (pp sql : String) (ps : List SVal),
        toSQLUpdate tn u wc wp pp = .ok (sql, ps) →
        ps = wp ++ (parseUpdateFilter u).sets.map (fun p => p.2)
                ++ (parseUpdateFilter u).increments.map (fun p => p.2))
    ∧ sqliteUpdateSetClauses
        [("$inc", .vObj [("age", .vInt 1)]), ("$set", .vObj [("name", .vStr "X")])]
      = (["\"name\" = ?", "\"age\" = \"age\" + ?"], [.vStr "X", .vInt 1])
    ∧ toSQLUpdate "users"
        [("$inc", .vObj [("age", .vInt 1)]), ("$set", .vObj [("name", .vStr "X")])]
        "1=1" [] "?"
      = .ok ("UPDATE users SET name = ?1, age = age + ?2 WHERE 1=1",
             [.vStr "X", .vInt 1]) := by
  refine ⟨?_, ?_, rfl, rfl⟩
  · intro u i j hi hj
    have h1 : (sqliteUpdateSetClauses u).1
        = ((parseUpdateFilter u).sets.map (fun p => "\"" ++ p.1 ++ "\" = ?")
            ++ (parseUpdateFilter u).increments.map
                (fun p => "\"" ++ p.1 ++ "\" = \"" ++ p.1 ++ "\" + ?"))
          ++ (parseUpdateFilter u).unsets.map (fun k => "\"" ++ k ++ "\" = NULL") := rfl
    refine ⟨?_, ?_, by omega⟩
    · rw [h1,
          List.getElem?_append_left (by simp; omega),
          List.getElem?_append_left (by simpa using hi),
          List.getElem?_map, List.getElem?_eq_getElem hi]
      simp [List.get_eq_getElem]
    · rw [h1,
          List.getElem?_append_left (by simp; omega),
          List.getElem?_append_right (by simp)]
      simp only [List.length_map, Nat.add_sub_cancel_left]
      rw [List.getElem?_map, List.getElem?_eq_getElem hj]
      simp [List.get_eq_getElem]
  · intro u tn wc wp pp sql ps h
    simp only [toSQLUpdate] at h
    split at h
    · exact absurd h (by simp)
    · simp only [Except.ok.injEq, Prod.mk.injEq] at h
      rw [← h.2, List.append_assoc]

/-- C3 witness: the universal conjuncts of the amended theorem applied at
the concrete update (assignment clause at position 0, increment clause at
position 1) and at its `toSQLUpdate` compilation. -/
theorem c3_assignments_before_increments_witness :
    (sqliteUpdateSetClauses
        [("$inc", .vObj [("age", .vInt 1)]),
         ("$set", .vObj [("name", .vStr "X")])]).1[0]? = some "\"name\" = ?"
    ∧ (sqliteUpdateSetClauses
        [("$inc", .vObj [("age", .vInt 1)]),
         ("$set", .vObj [("name", .vStr "X")])]).1[1]? = some "\"age\" = \"age\" + ?"
    ∧ ([.vStr "X", .vInt 1] : List SVal)
        = [] ++ [SVal.vStr "X"] ++ [SVal.vInt 1] := by
  have h := c3_assignments_before_increments.1
    [("$inc", .vObj [("age", .vInt 1)]), ("$set", .vObj [("name", .vStr "X")])]
    0 0 (by decide) (by decide)
  have h2 := c3_assignments_before_increments.2.1
    [("$inc", .vObj [("age", .vInt 1)]), ("$set", .vObj [("name", .vStr "X")])]
    "users" "1=1" [] "?" "UPDATE users SET name = ?1, age = age + ?2 WHERE 1=1"
    [.vStr "X", .vInt 1] rfl
  exact ⟨h.1, h.2.1, h2⟩

/-- C4 counterexample.  On the non-empty update `\x7b$foo: \x7bx: 1\x7d\x7d`
(only an unrecognized operator key) the update parser does not signal any
error: it returns the empty bucket set. -/
theorem c4_parser_returns_empty :
    parseUpdateFilter [("$foo", .vObj [("x", .vInt 1)])] = ⟨[], [], [], [], []⟩ :=
  rfl

/-- C4 amended (status: corrected).  The parser itself returns the empty
`UpdateSpec` for such input; the rejection is signalled downstream by the
relational update compiler: for every update whose parsing produces zero
operations in all five buckets, `toSQLUpdate` throws
`Error('No fields to update')`. -/
theorem c4_zero_op_update_rejected (u : List (String × SVal)) (_hne : u ≠ [])
    (h : parseUpdateFilter u = ⟨[], [], [], [], []⟩)
    (tn wc : String) (wp : List SVal) (pp : String) :
    toSQLUpdate tn u wc wp pp = .error "No fields to update" := by
  simp [toSQLUpdate, h]

/-- C4 witness: the amended theorem applied at the concrete zero-operation
update. -/
theorem c4_zero_op_update_rejected_witness :
    toSQLUpdate "users" [("$foo", .vObj [("x", .vInt 1)])] "1=1" [] "$"
      = .error "No fields to update" :=
  c4_zero_op_update_rejected [("$foo", .vObj [("x", .vInt 1)])] (by simp) rfl
    "users" "1=1" [] "$"

/-- Appending condition lists in the Mongo compiler: the accumulated filter
threads left to right and errors propagate. -/
theorem toMongoGo_append (l₁ l₂ : List Cond) (acc : MongoFilter) :
    toMongoGo (l₁ ++ l₂) acc = (toMongoGo l₁ acc).bind (fun m => toMongoGo l₂ m) := by
  induction l₁ generalizing acc with
  | nil => simp [toMongoGo, Except.bind]
  | cons c cs ih =>
    cases c with
    | group isOr subs =>
      cases h : toMongoSubs subs with
      | error e => simp [toMongoGo, h, Except.bind]
      | ok fs => simp [toMongoGo, h, Except.bind, ih]
    | leaf f op v =>
      by_cases hop : op = "$eq"
      · subst hop
        simp [toMongoGo, ih]
      · cases hk : getKey acc f with
        | none => simp [toMongoGo, hop, hk, ih]
        | some mv =>
          cases mv with
          | opmap l => simp [toMongoGo, hop, hk, ih]
          | subs fs => simp [toMongoGo, hop, hk, ih]
          | scalar w =>
            by_cases ht : jsTruthy w
            · simp [toMongoGo, hop, hk, ht, Except.bind]
            · simp [toMongoGo, hop, hk, ht, ih]

/-- C6 (status: confirmed).  A null-equality leaf, in any position of any
filter and from any compiler state, contributes the part `field IS NULL` to
the relational WHERE clause and binds no parameter (only the placeholder
counter advances); and the document-store compiler binds the field directly
to `null` in the native structure. -/
theorem c6_null_equality (pp f : String) (pre : List Cond) (s : WSt)
    (m : MongoFilter) (hm : toMongoFilter pre = .ok m) :
    processConds pp (pre ++ [.leaf f "$eq" .vNull]) s
      = ((processConds pp pre s).1 ++ [f ++ " IS NULL"],
         ⟨(processConds pp pre s).2.params, (processConds pp pre s).2.paramIndex + 1⟩)
    ∧ toMongoFilter (pre ++ [.leaf f "$eq" .vNull])
      = .ok (setKey m f (.scalar .vNull)) := by
  constructor
  · rw [processConds_append]
    simp [processConds, processCond, processLeaf]
  · unfold toMongoFilter at *
    rw [toMongoGo_append, hm]
    simp [Except.bind, toMongoGo]

/-- C6 witness: the theorem applied with one preceding equality leaf. -/
theorem c6_null_equality_witness :
    processConds "$" [.leaf "x" "$eq" (.vInt 5), .leaf "a" "$eq" .vNull] ⟨[], 1⟩
      = (["x = $1", "a IS NULL"], ⟨[.vInt 5], 3⟩)
    ∧ toMongoFilter [.leaf "x" "$eq" (.vInt 5), .leaf "a" "$eq" .vNull]
      = .ok [("x", .scalar (.vInt 5)), ("a", .scalar .vNull)] := by
  have h := c6_null_equality "$" "a" [.leaf "x" "$eq" (.vInt 5)] ⟨[], 1⟩
    [("x", .scalar (.vInt 5))]
    (by simp [toMongoFilter, toMongoGo, setKey])
  exact ⟨h.1, h.2⟩

/-- Leaf-free condition lists compile to no parts and leave the compiler
state untouched (strong induction on size, across the three mutually
recursive processing functions). -/
theorem noLeaf_eval (pp : String) :
    ∀ n : Nat,
      (∀ c : Cond, sizeOf c ≤ n → condNoLeaf c = true →
        ∀ s, processCond pp c s = ([], s)) ∧
      (∀ l : List Cond, sizeOf l ≤ n → condsNoLeaf l = true →
        ∀ s, processConds pp l s = ([], s)) ∧
      (∀ subs : List (List Cond), sizeOf subs ≤ n → subsNoLeaf subs = true →
        ∀ s, (processSubs pp subs s).2 = s ∧
          (processSubs pp subs s).1.filter (fun c => c ≠ "") = []) := by
  intro n
  induction n using Nat.strong_induction_on with
  | _ n ih =>
    refine ⟨?_, ?_, ?_⟩
    · intro c hc h s
      cases c with
      | leaf f op v => simp [condNoLeaf] at h
      | group isOr subs =>
        have hsz : sizeOf subs < n := by
          have hspec := Cond.group.sizeOf_spec isOr subs
          omega
        obtain ⟨hs2, hflt⟩ :=
          (ih (sizeOf subs) hsz).2.2 subs le_rfl (by simpa [condNoLeaf] using h) s
        rcases hps : processSubs pp subs s with ⟨strs, s2⟩
        rw [hps] at hs2 hflt
        replace hs2 : s2 = s := hs2
        replace hflt : strs.filter (fun c => c ≠ "") = [] := hflt
        simp [processCond, hps, hflt, hs2]
        simpa using hflt
    · intro l hl h s
      cases l with
      | nil => simp [processConds]
      | cons c cs =>
        have hspec := List.cons.sizeOf_spec c cs
        have hc : sizeOf c < n := by omega
        have hcs : sizeOf cs < n := by omega
        simp only [condsNoLeaf, Bool.and_eq_true] at h
        have h1 := (ih (sizeOf c) hc).1 c le_rfl h.1 s
        have h2 := (ih (sizeOf cs) hcs).2.1 cs le_rfl h.2 s
        simp [processConds, h1, h2]
    · intro subs hsub h s
      cases subs with
      | nil => simp [processSubs]
      | cons l ls =>
        have hspec := List.cons.sizeOf_spec l ls
        have hl : sizeOf l < n := by omega
        have hls : sizeOf ls < n := by omega
        simp only [subsNoLeaf, Bool.and_eq_true] at h
        have h1 := (ih (sizeOf l) hl).2.1 l le_rfl h.1 s
        have h2 := (ih (sizeOf ls) hls).2.2 ls le_rfl h.2 s
        rcases hps : processSubs pp ls s with ⟨strs, s2⟩
        rw [hps] at h2
        replace h2 : s2 = s ∧ strs.filter (fun c => c ≠ "") = [] := h2
        simp [processSubs, h1, hps, h2.1, h2.2, String.intercalate]
        simpa using h2.2

/-- C7 (status: confirmed).  The empty condition list, and more generally any
condition list all of whose members are logical groups containing no leaf
anywhere, compiles to the always-true clause `1=1` with an empty parameter
list. -/
theorem c7_empty_always_true (pp : String) (conds : List Cond)
    (h : condsNoLeaf conds = true) :
    toSQLWhere conds pp = ⟨"1=1", []⟩ := by
  have h2 := (noLeaf_eval pp (sizeOf conds)).2.1 conds le_rfl h ⟨[], 1⟩
  simp [toSQLWhere, h2, String.intercalate]

/-- C7 witness: the theorem applied to the empty list and to a filter whose
logical groups are all empty (`\x7b$or: [\x7b\x7d, \x7b\x7d]\x7d`). -/
theorem c7_empty_always_true_witness :
    toSQLWhere [] "$" = ⟨"1=1", []⟩
    ∧ toSQLWhere [.group true [[], []]] "$" = ⟨"1=1", []⟩ :=
  ⟨c7_empty_always_true "$" [] rfl,
   c7_empty_always_true "$" [.group true [[], []]] rfl⟩

/-- C9 (status: confirmed).  When the table-existence introspection query
throws (and force mode is off), the failure is not propagated: the differ
treats the table as absent and creates it from the full declared shape,
returning `created: true`. -/
theorem c9_introspection_failure_creates {σ : Type} (d : Driver σ)
    (cfg : SyncCfg) (schema : Shape) (s s' : σ) (a : Bool)
    (hsql : isSqlDialect cfg.adapterName = true) (hq : cfg.hasQuery = true)
    (hthrow : d.existsResult s = .error ())
    (hcreate : d.runCreate s = .ok s') :
    sync d cfg schema ⟨false, a⟩ s
      = .ok (⟨true, false, ["Table '" ++ cfg.collectionName ++ "' created"]⟩,
             s', [.existsQuery, .createTable]) := by
  have hmongo : ¬cfg.adapterName = "mongodb" := by
    intro heq
    rw [heq] at hsql
    simp [isSqlDialect] at hsql
  simp [sync, tableExists, hmongo, hsql, hq, hthrow, hcreate]

/-- C9 witness: the theorem applied to the driver whose existence
introspection throws. -/
theorem c9_introspection_failure_creates_witness :
    sync (throwingExistsDriver ["id"]) ⟨"postgres", true, "users"⟩
        [("id", ⟨false, false, false⟩)] ⟨false, false⟩ ⟨true, ["id"]⟩
      = .ok (⟨true, false, ["Table 'users' created"]⟩, ⟨true, ["id"]⟩,
             [.existsQuery, .createTable]) :=
  c9_introspection_failure_creates (throwingExistsDriver ["id"])
    ⟨"postgres", true, "users"⟩ [("id", ⟨false, false, false⟩)]
    ⟨true, ["id"]⟩ ⟨true, ["id"]⟩ false rfl rfl rfl rfl

/-- C10 (status: confirmed).  Force mode drops and recreates without any
table-existence introspection, ignores the alter flag, and returns exactly
`created: true, altered: false` with a one-element change list; and across
all option combinations no result ever has `created` and `altered` both
true. -/
theorem c10_force_semantics {σ : Type} (d : Driver σ) (cfg : SyncCfg)
    (schema : Shape) (s : σ) (a : Bool) :
    (∀ r s' tr, sync d cfg schema ⟨true, a⟩ s = .ok (r, s', tr) →
      r.created = true ∧ r.altered = false ∧ r.changes.length = 1
      ∧ tr = [.dropTable, .createTable] ∧ DbOp.existsQuery ∉ tr)
    ∧ sync d cfg schema ⟨true, a⟩ s = sync d cfg schema ⟨true, !a⟩ s
    ∧ (∀ opts r s' tr, sync d cfg schema opts s = .ok (r, s', tr) →
        ¬(r.created = true ∧ r.altered = true)) := by
  refine ⟨?_, ?_, ?_⟩
  · intro r s' tr h
    simp only [sync] at h
    rcases hd : d.runDrop s with e | s1 <;> rw [hd] at h <;> simp at h
    rcases hc : d.runCreate s1 with e | s2 <;> rw [hc] at h <;> simp at h
    obtain ⟨h1, -, h3⟩ := h
    subst h1 h3
    refine ⟨rfl, rfl, rfl, rfl, by decide⟩
  · simp [sync]
  · intro opts r s' tr h
    simp only [sync] at h
    by_cases hf : opts.force <;> simp [hf] at h
    · rcases hd : d.runDrop s with e | s1 <;> rw [hd] at h <;> simp at h
      rcases hc : d.runCreate s1 with e | s2 <;> rw [hc] at h <;> simp at h
      obtain ⟨h1, -, -⟩ := h
      subst h1
      simp
    · rcases htx : tableExists d cfg s with ⟨ex, tr0⟩
      rw [htx] at h
      by_cases hex : ex <;> simp [hex] at h
      · by_cases hal : opts.alter <;> simp [hal] at h
        · rcases hat : alterTable d cfg schema s with ⟨chs, s1, tr1⟩
          rw [hat] at h
          by_cases hchs : chs.length > 0 <;> simp [hchs] at h
          · obtain ⟨h1, -, -⟩ := h
            subst h1
            simp
          · obtain ⟨h1, -, -⟩ := h
            subst h1
            simp
        · obtain ⟨h1, -, -⟩ := h
          subst h1
          simp
      · rcases hc : d.runCreate s with e | s1 <;> rw [hc] at h <;> simp at h
        obtain ⟨h1, -, -⟩ := h
        subst h1
        simp

/-- C10 witness: the force branch of the theorem applied at a concrete
backend (the existence introspection would have reported the table present,
yet the trace holds no introspection). -/
theorem c10_force_semantics_witness :
    (⟨true, false, ["Table 'users' dropped and recreated"]⟩ : SyncResult).created = true
    ∧ (⟨true, false, ["Table 'users' dropped and recreated"]⟩ : SyncResult).altered = false
    ∧ (["Table 'users' dropped and recreated"] : List String).length = 1
    ∧ ([DbOp.dropTable, DbOp.createTable] : List DbOp) = [.dropTable, .createTable]
    ∧ DbOp.existsQuery ∉ ([DbOp.dropTable, DbOp.createTable] : List DbOp) :=
  (c10_force_semantics (goodDriver ["id"]) ⟨"postgres", true, "users"⟩
      [("id", ⟨false, false, false⟩)] ⟨true, ["id"]⟩ true).1
    ⟨true, false, ["Table 'users' dropped and recreated"]⟩ ⟨true, ["id"]⟩
    [.dropTable, .createTable] rfl

/-- Declared fields already present (case-insensitively) contribute nothing
to the alter loop: processing continues with the remaining fields. -/
theorem alterLoop_allPresent_ext {σ : Type} (d : Driver σ) (cfg : SyncCfg)
    (es : List String) :
    ∀ (l₁ l₂ : Shape) (s : σ), (∀ p ∈ l₁, lowerStr p.1 ∈ es) →
      alterLoop d cfg es (l₁ ++ l₂) s = alterLoop d cfg es l₂ s := by
  intro l₁
  induction l₁ with
  | nil => intro l₂ s h; rfl
  | cons p rest ih =>
    intro l₂ s h
    obtain ⟨pf, pd⟩ := p
    have hp : lowerStr pf ∈ es := h (pf, pd) (by simp)
    have hrest : ∀ q ∈ rest, lowerStr q.1 ∈ es := fun q hq => h q (by simp [hq])
    simp [alterLoop, hp, ih l₂ s hrest]

/-- A driver whose CREATE INDEX is a state-preserving success makes
`syncIndexes` a state no-op. -/
theorem syncIndexes_state_id {σ : Type} (d : Driver σ) (cfg : SyncCfg)
    (hidx : ∀ g t, d.runCreateIndex g t = .ok t) :
    ∀ (shape : Shape) (s : σ), (syncIndexes d cfg shape s).1 = s := by
  intro shape
  induction shape with
  | nil => intro s; rfl
  | cons p rest ih =>
    intro s
    obtain ⟨pf, pd⟩ := p
    by_cases hc : ((pd.uniqueFlag || pd.indexFlag)
        && isSqlDialect cfg.adapterName && cfg.hasQuery) = true
    · simp [syncIndexes, hc, hidx, ih]
    · have hc' : ((pd.uniqueFlag || pd.indexFlag)
          && isSqlDialect cfg.adapterName && cfg.hasQuery) = false := by
        simpa using hc
      simp [syncIndexes, hc', ih]

/-- Under `failingDriver bad`, an alter loop whose declared fields are
`pre ++ (f, fd) :: post` — with every `pre` field addable and absent, and `f`
absent but failing — adds exactly the `pre` columns, then aborts at `f`,
never reaching `post`. -/
theorem alterLoop_failing (cfg : SyncCfg)
    (hsql : isSqlDialect cfg.adapterName = true) (hq : cfg.hasQuery = true)
    (es bad : List String) (f : String) (fd : FieldDef) (post : Shape)
    (hf1 : lowerStr f ∉ es) (hf2 : f ∈ bad) :
    ∀ (pre : Shape) (db : Db),
      (∀ p ∈ pre, p.1 ∉ bad ∧ lowerStr p.1 ∉ es) →
      alterLoop (failingDriver bad []) cfg es (pre ++ (f, fd) :: post) db
        = (pre.map (fun p => "Added column '" ++ p.1 ++ "'"),
           ⟨db.present, db.cols ++ pre.map (fun p => p.1)⟩,
           pre.map (fun p => DbOp.addColumn p.1) ++ [DbOp.addColumn f], true) := by
  intro pre
  induction pre with
  | nil =>
    intro db h
    simp [alterLoop, hf1, hf2, hsql, hq, failingDriver]
  | cons p rest ih =>
    intro db h
    obtain ⟨pf, pd⟩ := p
    obtain ⟨hbad, habs⟩ := h (pf, pd) (by simp)
    have hrest := fun q hq => h q (List.mem_cons_of_mem _ hq)
    have hrun : (failingDriver bad []).runAddColumn pf db
        = .ok ⟨db.present, db.cols ++ [pf]⟩ := by
      simp [failingDriver]
      intro hmem
      exact absurd hmem hbad
    simp [alterLoop, habs, hsql, hq, hrun,
          ih ⟨db.present, db.cols ++ [pf]⟩ hrest]

/-- C5 counterexample.  Declared missing fields `a`, `b`, `c` where adding
`b` fails: the loop aborts at `b` — column `c` is never attempted (no
`addColumn "c"` in the trace), so synchronization does not continue
column-by-column with the remaining declared fields. -/
theorem c5_abort_counterexample :
    sync (failingDriver ["b"]) ⟨"postgres", true, "users"⟩
        [("a", ⟨false, false, false⟩), ("b", ⟨false, false, false⟩),
         ("c", ⟨false, false, false⟩)]
        ⟨false, true⟩ ⟨true, ["id"]⟩
      = .ok (⟨false, true, ["Added column 'a'"]⟩, ⟨true, ["id", "a"]⟩,
             [.existsQuery, .columnsQuery, .addColumn "a", .addColumn "b"])
    ∧ DbOp.addColumn "c"
        ∉ [DbOp.existsQuery, .columnsQuery, .addColumn "a", .addColumn "b"] :=
  ⟨rfl, by decide⟩

/-- C5 amended (status: corrected).  When one ADD COLUMN fails in alter-mode
synchronization, the failure is not propagated (the call still returns a
result), the change list contains exactly the columns added before the
failure, the failing statement was attempted — but the loop aborts: the
remaining declared fields are never attempted. -/
theorem c5_partial_alter_aborts (cfg : SyncCfg)
    (hsql : isSqlDialect cfg.adapterName = true) (hq : cfg.hasQuery = true)
    (pre post : Shape) (f : String) (fd : FieldDef) (bad : List String)
    (db : Db) (hdb : db.present = true)
    (hpre : ∀ p ∈ pre, p.1 ∉ bad ∧ lowerStr p.1 ∉ db.cols.map lowerStr)
    (hf1 : lowerStr f ∉ db.cols.map lowerStr) (hf2 : f ∈ bad)
    (hpost : ∀ p ∈ post, p.1 ≠ f ∧ p.1 ∉ pre.map (fun q => q.1)) :
    ∃ r dbf tr,
      sync (failingDriver bad []) cfg (pre ++ (f, fd) :: post) ⟨false, true⟩ db
        = .ok (r, dbf, tr)
      ∧ r.created = false
      ∧ r.changes = pre.map (fun p => "Added column '" ++ p.1 ++ "'")
      ∧ DbOp.addColumn f ∈ tr
      ∧ ∀ p ∈ post, DbOp.addColumn p.1 ∉ tr := by
  have hmongo : ¬cfg.adapterName = "mongodb" := by
    intro heq
    rw [heq] at hsql
    simp [isSqlDialect] at hsql
  have hloop := alterLoop_failing cfg hsql hq (db.cols.map lowerStr) bad f fd post
    hf1 hf2 pre db hpre
  have hdrv_ex : (failingDriver bad []).existsResult db = .ok db.present := rfl
  have hdrv_cols : (failingDriver bad []).columnsResult db = .ok db.cols := rfl
  have htex : tableExists (failingDriver bad []) cfg db = (true, [DbOp.existsQuery]) := by
    simp [tableExists, hmongo, hsql, hq, hdrv_ex, hdb]
  have hgec : getExistingColumns (failingDriver bad []) cfg db
      = (db.cols, [DbOp.columnsQuery]) := by
    simp [getExistingColumns, hsql, hq, hdrv_cols]
  have halter : alterTable (failingDriver bad []) cfg (pre ++ (f, fd) :: post) db
      = (pre.map (fun p => "Added column '" ++ p.1 ++ "'"),
         ⟨db.present, db.cols ++ pre.map (fun p => p.1)⟩,
         [DbOp.columnsQuery]
           ++ (pre.map (fun p => DbOp.addColumn p.1) ++ [DbOp.addColumn f])) := by
    simp [alterTable, hmongo, hgec, hloop]
  by_cases hpre0 : pre = []
  · subst hpre0
    refine ⟨⟨false, false, []⟩, db, [.existsQuery, .columnsQuery, .addColumn f],
            ?_, rfl, by simp, by simp, ?_⟩
    · simp at halter
      simp [sync, htex, halter]
    · intro p hp
      simp [(hpost p hp).1]
  · refine ⟨⟨false, true, pre.map (fun p => "Added column '" ++ p.1 ++ "'")⟩,
            ⟨db.present, db.cols ++ pre.map (fun p => p.1)⟩,
            [.existsQuery, .columnsQuery] ++ pre.map (fun p => DbOp.addColumn p.1)
              ++ [.addColumn f], ?_, rfl, rfl, ?_, ?_⟩
    · have hlen : 0 < pre.length := List.length_pos.mpr hpre0
      simp [sync, htex, halter, hlen]
    · simp
    · intro p hp
      obtain ⟨hne, hnotin⟩ := hpost p hp
      intro hmem
      rcases List.mem_append.mp hmem with h12 | h3
      · rcases List.mem_append.mp h12 with h1 | h2
        · simp at h1
        · obtain ⟨q, hq, hqe⟩ := List.mem_map.mp h2
          have hq1 : q.1 = p.1 := by simpa using hqe
          exact hnotin (hq1 ▸ List.mem_map_of_mem (fun z => z.1) hq)
      · have hpf : p.1 = f := by simpa using h3
        exact hne hpf

/-- C5 witness: the amended theorem applied at a concrete scenario (fields
`a`, `b`, `c` all missing, adding `b` fails). -/
theorem c5_partial_alter_aborts_witness :
    ∃ r dbf tr,
      sync (failingDriver ["b"] []) ⟨"postgres", true, "users"⟩
          ([("a", ⟨false, false, false⟩)] ++ ("b", (⟨false, false, false⟩ : FieldDef))
             :: [("c", ⟨false, false, false⟩)]) ⟨false, true⟩ ⟨true, ["id"]⟩
        = .ok (r, dbf, tr)
      ∧ r.created = false
      ∧ r.changes = [("a", (⟨false, false, false⟩ : FieldDef))].map
          (fun p => "Added column '" ++ p.1 ++ "'")
      ∧ DbOp.addColumn "b" ∈ tr
      ∧ ∀ p ∈ [("c", (⟨false, false, false⟩ : FieldDef))], DbOp.addColumn p.1 ∉ tr :=
  c5_partial_alter_aborts ⟨"postgres", true, "users"⟩ rfl rfl
    [("a", ⟨false, false, false⟩)] [("c", ⟨false, false, false⟩)] "b"
    ⟨false, false, false⟩ ["b"] ⟨true, ["id"]⟩ rfl
    (by intro p hp; simp at hp; simp [hp, lowerStr])
    (by simp [lowerStr]) (by simp)
    (by intro p hp; simp at hp; simp [hp])

/-- C8 (status: confirmed).  Against a table already synchronized with
`shape` (every declared field present case-insensitively), alter-mode
synchronization of `shape` plus one new field `f` adds exactly the column
`f`, returning `created: false, altered: true,
changes: ["Added column f"]`; running the identical synchronization again
is idempotent: `created: false, altered: false, changes: []` and an
unchanged backend state. -/
theorem c8_alter_add_then_idempotent (cfg : SyncCfg)
    (hsql : isSqlDialect cfg.adapterName = true) (hq : cfg.hasQuery = true)
    (shape : Shape) (f : String) (fd : FieldDef) (db : Db)
    (hdb : db.present = true)
    (hcov : ∀ p ∈ shape, lowerStr p.1 ∈ db.cols.map lowerStr)
    (hnew : lowerStr f ∉ db.cols.map lowerStr) :
    (∃ tr, sync (goodDriver []) cfg (shape ++ [(f, fd)]) ⟨false, true⟩ db
       = .ok (⟨false, true, ["Added column '" ++ f ++ "'"]⟩,
              ⟨db.present, db.cols ++ [f]⟩, tr))
    ∧ (∃ tr, sync (goodDriver []) cfg (shape ++ [(f, fd)]) ⟨false, true⟩
          ⟨db.present, db.cols ++ [f]⟩
       = .ok (⟨false, false, []⟩, ⟨db.present, db.cols ++ [f]⟩, tr)) := by
  have hmongo : ¬cfg.adapterName = "mongodb" := by
    intro heq
    rw [heq] at hsql
    simp [isSqlDialect] at hsql
  have hidx : ∀ g t, (goodDriver []).runCreateIndex g t = Except.ok t :=
    fun _ _ => rfl
  have htex : tableExists (goodDriver []) cfg db = (true, [DbOp.existsQuery]) := by
    simp [tableExists, hmongo, hsql, hq, goodDriver, hdb]
  have hgec : getExistingColumns (goodDriver []) cfg db
      = (db.cols, [DbOp.columnsQuery]) := by
    simp [getExistingColumns, hsql, hq, goodDriver]
  have hstep : alterLoop (goodDriver []) cfg (db.cols.map lowerStr) [(f, fd)] db
      = (["Added column '" ++ f ++ "'"], ⟨db.present, db.cols ++ [f]⟩,
         [DbOp.addColumn f], false) := by
    simp [alterLoop, hnew, hsql, hq, goodDriver]
  rcases hsi : syncIndexes (goodDriver []) cfg (shape ++ [(f, fd)])
      ⟨db.present, db.cols ++ [f]⟩ with ⟨s2, tr2⟩
  have hs2 : s2 = ⟨db.present, db.cols ++ [f]⟩ := by
    have h := syncIndexes_state_id (goodDriver []) cfg hidx (shape ++ [(f, fd)])
      ⟨db.present, db.cols ++ [f]⟩
    rw [hsi] at h
    exact h
  subst hs2
  have halter1 : alterTable (goodDriver []) cfg (shape ++ [(f, fd)]) db
      = (["Added column '" ++ f ++ "'"], ⟨db.present, db.cols ++ [f]⟩,
         [DbOp.columnsQuery, DbOp.addColumn f] ++ tr2) := by
    simp [alterTable, hmongo, hgec,
          alterLoop_allPresent_ext (goodDriver []) cfg (db.cols.map lowerStr)
            shape [(f, fd)] db hcov,
          hstep, hsi]
  constructor
  · exact ⟨[DbOp.existsQuery, DbOp.columnsQuery, DbOp.addColumn f] ++ tr2,
      by simp [sync, htex, halter1]⟩
  · have htex2 : tableExists (goodDriver []) cfg ⟨db.present, db.cols ++ [f]⟩
        = (true, [DbOp.existsQuery]) := by
      simp [tableExists, hmongo, hsql, hq, goodDriver, hdb]
    have hgec2 : getExistingColumns (goodDriver []) cfg ⟨db.present, db.cols ++ [f]⟩
        = (db.cols ++ [f], [DbOp.columnsQuery]) := by
      simp [getExistingColumns, hsql, hq, goodDriver]
    have hcov2 : ∀ p ∈ shape ++ [(f, fd)],
        lowerStr p.1 ∈ db.cols.map lowerStr ++ [lowerStr f] := by
      intro p hp
      rcases List.mem_append.mp hp with h | h
      · exact List.mem_append.mpr (Or.inl (hcov p h))
      · simp only [List.mem_singleton] at h
        subst h
        simp
    have hloop2 : alterLoop (goodDriver []) cfg (db.cols.map lowerStr ++ [lowerStr f])
        (shape ++ [(f, fd)]) ⟨db.present, db.cols ++ [f]⟩
        = ([], ⟨db.present, db.cols ++ [f]⟩, [], false) := by
      have h := alterLoop_allPresent_ext (goodDriver []) cfg
        (db.cols.map lowerStr ++ [lowerStr f]) (shape ++ [(f, fd)]) []
        ⟨db.present, db.cols ++ [f]⟩ hcov2
      simpa [alterLoop] using h
    rcases hsi2 : syncIndexes (goodDriver []) cfg (shape ++ [(f, fd)])
        ⟨db.present, db.cols ++ [f]⟩ with ⟨s3, tr3⟩
    have hs3 : s3 = ⟨db.present, db.cols ++ [f]⟩ := by
      have h := syncIndexes_state_id (goodDriver []) cfg hidx (shape ++ [(f, fd)])
        ⟨db.present, db.cols ++ [f]⟩
      rw [hsi2] at h
      exact h
    subst hs3
    have halter2 : alterTable (goodDriver []) cfg (shape ++ [(f, fd)])
        ⟨db.present, db.cols ++ [f]⟩
        = ([], ⟨db.present, db.cols ++ [f]⟩, [DbOp.columnsQuery] ++ tr3) := by
      simp [alterTable, hmongo, hgec2, hloop2, hsi2]
    exact ⟨[DbOp.existsQuery, DbOp.columnsQuery] ++ tr3,
      by simp [sync, htex2, halter2]⟩

/-- C8 witness: the theorem applied at a concrete table and shape. -/
theorem c8_alter_add_then_idempotent_witness :
    (∃ tr, sync (goodDriver []) ⟨"postgres", true, "users"⟩
        ([("id", ⟨false, false, false⟩)] ++ [("phone", (⟨false, false, false⟩ : FieldDef))])
        ⟨false, true⟩ ⟨true, ["id"]⟩
      = .ok (⟨false, true, ["Added column 'phone'"]⟩, ⟨true, ["id", "phone"]⟩, tr))
    ∧ (∃ tr, sync (goodDriver []) ⟨"postgres", true, "users"⟩
        ([("id", ⟨false, false, false⟩)] ++ [("phone", (⟨false, false, false⟩ : FieldDef))])
        ⟨false, true⟩ ⟨true, ["id", "phone"]⟩
      = .ok (⟨false, false, []⟩, ⟨true, ["id", "phone"]⟩, tr)) :=
  c8_alter_add_then_idempotent ⟨"postgres", true, "users"⟩ rfl rfl
    [("id", ⟨false, false, false⟩)] "phone" ⟨false, false, false⟩ ⟨true, ["id"]⟩
    rfl (by intro p hp; simp at hp; simp [hp, lowerStr])
    (by simp [lowerStr])

end SDBC